import Mathlib

/-!
Shallow embedding of `final_scraper.py` from the `star_wars_scraper`
repository (with `scrapper.py` as an earlier draft of the same pipeline).

Modelling conventions:
* A pandas `DataFrame` row of a scraped film table is a `Row`.  The scraped
  tables have `Film` as their first column and `U.S. release date` as their
  second column; the remaining columns (`Director(s)`, `Refs.`, ...) are kept
  as the uninterpreted cell list `rest`.  `df.iloc[:, 0:2]` therefore projects
  a row to its `film` and `usReleaseDate` fields.
* `pd.to_datetime` parsing of the date strings is not itself the subject of
  any claim; release-date cells are modelled as already-parsed `Date` values
  (`.dt.year` is the `year` field), so the `to_datetime` coercion is the
  identity on the model.
* Python's substring test `"trilogy" in s` and the (regex-free, literal)
  `Series.str.contains("trilogy")` are both the substring check
  `containsSub "trilogy" s`.
-/

namespace StarWarsScraper

/-- A parsed `U.S. release date` cell (a pandas `Timestamp`); `.dt.year`
reads the `year` field. -/
structure Date where
  year : Int
  month : Nat
  day : Nat
  deriving DecidableEq, Repr

/-- One row of a scraped film table: first column `Film`, second column
`U.S. release date`, remaining columns uninterpreted. -/
structure Row where
  film : String
  usReleaseDate : Date
  rest : List String
  deriving DecidableEq, Repr

/-- A row after `df["Trilogy"] = None` added the `Trilogy` column
(appended as the last column, initialised to `None`). -/
structure RowT where
  film : String
  usReleaseDate : Date
  rest : List String
  trilogy : Option String
  deriving DecidableEq, Repr

/-- A row of the frame returned by `process_films`, i.e. of
`df.iloc[:, 0:2]`: the first two columns `Film`, `U.S. release date`. -/
structure Row2 where
  film : String
  usReleaseDate : Date
  deriving DecidableEq, Repr

/-- Test that the first character list starts the second one. -/
def listPrefixOf : List Char → List Char → Bool
  | [], _ => true
  | _ :: _, [] => false
  | a :: as, b :: bs => a == b && listPrefixOf as bs

/-- Test that `needle` occurs as a contiguous run inside the second list. -/
def substrAux (needle : List Char) : List Char → Bool
  | [] => listPrefixOf needle []
  | c :: t => listPrefixOf needle (c :: t) || substrAux needle t

/-- The Python substring test `needle in hay` on strings (case-sensitive),
also the literal-pattern `Series.str.contains` match. -/
def containsSub (needle hay : String) : Bool :=
  substrAux needle.toList hay.toList

/-- The trilogy-header test of `process_films` (line 109 of
`final_scraper.py`): the `Film` cell contains the substring `"trilogy"`. -/
def isHeader (r : Row) : Bool :=
  containsSub "trilogy" r.film

/-- The same header test on a row carrying the `Trilogy` column. -/
def isHeaderT (r : RowT) : Bool :=
  containsSub "trilogy" r.film

/-- The loop `for index, row in df.iterrows()` of `process_films`
(lines 106-112 of `final_scraper.py`): the accumulator `trilogy` starts as
`tri` (the code initialises it to `""`); a header row updates the
accumulator and keeps `Trilogy = None`; any other row gets the current
accumulator written into its `Trilogy` cell. -/
def fillPass : List Row → String → List RowT
  | [], _ => []
  | r :: rs, tri =>
    if isHeader r then
      { film := r.film, usReleaseDate := r.usReleaseDate, rest := r.rest,
        trilogy := none } :: fillPass rs r.film
    else
      { film := r.film, usReleaseDate := r.usReleaseDate, rest := r.rest,
        trilogy := some tri } :: fillPass rs tri

/-- Projection `df.iloc[:, 0:2]` on a trilogy-annotated row: the `Trilogy`
column was appended last, so the first two columns are `Film` and
`U.S. release date`. -/
def projT (r : RowT) : Row2 :=
  { film := r.film, usReleaseDate := r.usReleaseDate }

/-- Projection `df.iloc[:, 0:2]` on an unannotated row. -/
def proj (r : Row) : Row2 :=
  { film := r.film, usReleaseDate := r.usReleaseDate }

/-- The function `process_films` (lines 89-119 of `final_scraper.py`).  With
`needed_flag = True`: add the `Trilogy` column, run the forward-fill loop,
drop the rows whose `Film` contains `"trilogy"`, coerce the date column
(identity on the model), and return the first two columns.  With
`needed_flag = False`: only the coercion and the projection happen. -/
def process_films (df : List Row) (needed_flag : Bool) : List Row2 :=
  if needed_flag then
    ((fillPass df "").filter (fun r => !isHeaderT r)).map projT
  else
    df.map proj

/-- The `Film` label of the most recent trilogy header row strictly before
index `i` of the input table, when one exists (specification-side notion
used to state the forward-fill claims). -/
def mostRecentHeaderBefore (df : List Row) (i : Nat) : Option String :=
  (df.take i).foldl (fun acc r => if isHeader r then some r.film else acc) none

/-- The value of the loop accumulator `trilogy` after the rows `pre` have
been traversed, starting from `init`. -/
def lastLabel (pre : List Row) (init : String) : String :=
  pre.foldl (fun acc r => if isHeader r then r.film else acc) init

/-- The loop accumulator on an optional initial value: the label of the
last header seen in `pre`, defaulting to `acc`. -/
def lastLabelO (pre : List Row) (acc : Option String) : Option String :=
  pre.foldl (fun a r => if isHeader r then some r.film else a) acc

theorem lastLabel_cons (r : Row) (rs : List Row) (init : String) :
    lastLabel (r :: rs) init = lastLabel rs (if isHeader r then r.film else init) :=
  rfl

theorem lastLabelO_cons (r : Row) (rs : List Row) (acc : Option String) :
    lastLabelO (r :: rs) acc = lastLabelO rs (if isHeader r then some r.film else acc) :=
  rfl

theorem mostRecentHeaderBefore_eq (df : List Row) (i : Nat) :
    mostRecentHeaderBefore df i = lastLabelO (df.take i) none :=
  rfl

theorem lastLabelO_some (pre : List Row) (s : String) :
    lastLabelO pre (some s) = some ((lastLabelO pre none).getD s) := by
  induction pre generalizing s with
  | nil => rfl
  | cons r rs ih =>
    rw [lastLabelO_cons, lastLabelO_cons]
    cases hh : isHeader r with
    | false =>
      simp only [Bool.false_eq_true, if_false]
      exact ih s
    | true =>
      simp only [if_true]
      rw [ih r.film]
      simp

theorem lastLabel_eq_getD (pre : List Row) (init : String) :
    lastLabel pre init = (lastLabelO pre none).getD init := by
  induction pre generalizing init with
  | nil => rfl
  | cons r rs ih =>
    rw [lastLabel_cons, lastLabelO_cons]
    cases hh : isHeader r with
    | false =>
      simp only [Bool.false_eq_true, if_false]
      exact ih init
    | true =>
      simp only [if_true]
      rw [ih r.film, lastLabelO_some]
      simp

theorem fillPass_length (df : List Row) (init : String) :
    (fillPass df init).length = df.length := by
  induction df generalizing init with
  | nil => rfl
  | cons r rs ih =>
    simp only [fillPass]
    split <;> simp [ih]

/-- Positional description of the forward-fill loop: row `i` of the output
keeps the fields of row `i` of the input; a header row keeps the initial
`None` in its `Trilogy` cell, any other row receives the accumulator value
reached after the rows before it. -/
theorem fillPass_getElem? (df : List Row) (init : String) (i : Nat) :
    (fillPass df init)[i]? = (df[i]?).map (fun r =>
      { film := r.film, usReleaseDate := r.usReleaseDate, rest := r.rest,
        trilogy := if isHeader r then none
          else some (lastLabel (df.take i) init) }) := by
  induction df generalizing init i with
  | nil => simp [fillPass]
  | cons r rs ih =>
    cases hh : isHeader r with
    | true =>
      cases i with
      | zero => simp [fillPass, hh]
      | succ n =>
        simp only [fillPass, hh, if_true, List.getElem?_cons_succ,
          List.take_succ_cons, lastLabel_cons]
        exact ih r.film n
    | false =>
      cases i with
      | zero => simp [fillPass, hh, lastLabel]
      | succ n =>
        simp only [fillPass, hh, Bool.false_eq_true, if_false,
          List.getElem?_cons_succ, List.take_succ_cons, lastLabel_cons]
        exact ih init n

/-- Sample date used by concrete witnesses. -/
def dHope : Date := ⟨1977, 5, 25⟩

/-- A trilogy header row, as it appears in the Skywalker saga table. -/
def rowHeaderO : Row := ⟨"Original trilogy", dHope, []⟩

/-- An ordinary (non-header) film row. -/
def rowHope : Row := ⟨"A New Hope", dHope, []⟩

/-- C1: with `needed_flag = True`, the single forward pass of
`process_films` writes into the `Trilogy` cell of every non-header row the
`Film` value of the most recent trilogy header row preceding it in table
order (the last-seen label is carried down until a new header appears). -/
theorem claim1_forward_fill_label (df : List Row) (i : Nat) (r : Row) (s : String)
    (hr : df[i]? = some r) (hnh : isHeader r = false)
    (hs : mostRecentHeaderBefore df i = some s) :
    ∃ rt : RowT, (fillPass df "")[i]? = some rt ∧
      rt.film = r.film ∧ rt.trilogy = some s := by
  have h := fillPass_getElem? df "" i
  rw [hr] at h
  refine ⟨_, h, rfl, ?_⟩
  rw [mostRecentHeaderBefore_eq] at hs
  simp only [hnh, Bool.false_eq_true, if_false, lastLabel_eq_getD, hs, Option.getD_some]

theorem claim1_witness :
    ([rowHeaderO, rowHope][1]? = some rowHope) ∧
    isHeader rowHope = false ∧
    mostRecentHeaderBefore [rowHeaderO, rowHope] 1 = some "Original trilogy" ∧
    ∃ rt : RowT, (fillPass [rowHeaderO, rowHope] "")[1]? = some rt ∧
      rt.film = rowHope.film ∧ rt.trilogy = some "Original trilogy" :=
  ⟨by decide, by decide, by decide,
    claim1_forward_fill_label [rowHeaderO, rowHope] 1 rowHope "Original trilogy"
      (by decide) (by decide) (by decide)⟩

/-- C9: a non-header row with no trilogy header row before it gets the
empty string as its `Trilogy` value (the accumulator starts as `""`), not
a missing value. -/
theorem claim9_empty_label_before_first_header (df : List Row) (i : Nat) (r : Row)
    (hr : df[i]? = some r) (hnh : isHeader r = false)
    (hnone : mostRecentHeaderBefore df i = none) :
    ∃ rt : RowT, (fillPass df "")[i]? = some rt ∧
      rt.film = r.film ∧ rt.trilogy = some "" := by
  have h := fillPass_getElem? df "" i
  rw [hr] at h
  refine ⟨_, h, rfl, ?_⟩
  rw [mostRecentHeaderBefore_eq] at hnone
  simp only [hnh, Bool.false_eq_true, if_false, lastLabel_eq_getD, hnone, Option.getD_none]

theorem claim9_witness :
    ([rowHope][0]? = some rowHope) ∧
    isHeader rowHope = false ∧
    mostRecentHeaderBefore [rowHope] 0 = none ∧
    ∃ rt : RowT, (fillPass [rowHope] "")[0]? = some rt ∧
      rt.film = rowHope.film ∧ rt.trilogy = some "" :=
  ⟨by decide, by decide, by decide,
    claim9_empty_label_before_first_header [rowHope] 0 rowHope
      (by decide) (by decide) (by decide)⟩

/-- Default row used by `List.getD` when rendering C2. -/
def defaultRowT : RowT := ⟨"", ⟨0, 0, 0⟩, [], none⟩

/-- Rendering of C2 as stated: after the fill pass, every non-header row
either carries no `Trilogy` value, or the value it carries is the label of
the most recent trilogy header row preceding it in table order. -/
def trilogyAssignmentClaim (df : List Row) : Prop :=
  ∀ i : Fin df.length,
    isHeader (df.get i) = false →
    (((fillPass df "").getD i.val defaultRowT).trilogy = none ∨
      mostRecentHeaderBefore df i.val =
        ((fillPass df "").getD i.val defaultRowT).trilogy)

/-- C2 as stated is false: a non-header row with no preceding trilogy
header is assigned the value `""`, which is not the label of any
preceding header (there is none). -/
theorem claim2_counterexample : ¬ trilogyAssignmentClaim [rowHope] := by
  intro h
  have := h ⟨0, by decide⟩ (by decide)
  revert this
  decide

/-- C2 (amended): after the fill pass every non-header row carries exactly
one `Trilogy` value, namely the label of the most recent trilogy header
row preceding it when one exists, and the empty string otherwise. -/
theorem claim2_amended_label (df : List Row) (i : Nat) (r : Row)
    (hr : df[i]? = some r) (hnh : isHeader r = false) :
    ∃ rt : RowT, (fillPass df "")[i]? = some rt ∧
      rt.trilogy = some ((mostRecentHeaderBefore df i).getD "") := by
  have h := fillPass_getElem? df "" i
  rw [hr] at h
  refine ⟨_, h, ?_⟩
  rw [mostRecentHeaderBefore_eq]
  simp only [hnh, Bool.false_eq_true, if_false, lastLabel_eq_getD]

theorem claim2_amended_witness :
    ([rowHope][0]? = some rowHope) ∧
    isHeader rowHope = false ∧
    ∃ rt : RowT, (fillPass [rowHope] "")[0]? = some rt ∧
      rt.trilogy = some ((mostRecentHeaderBefore [rowHope] 0).getD "") :=
  ⟨by decide, by decide,
    claim2_amended_label [rowHope] 0 rowHope (by decide) (by decide)⟩

theorem fillPass_filter_map (df : List Row) (init : String) :
    ((fillPass df init).filter (fun rt => !isHeaderT rt)).map projT =
      (df.filter (fun r => !isHeader r)).map proj := by
  induction df generalizing init with
  | nil => rfl
  | cons r rs ih =>
    simp only [fillPass]
    cases hh : isHeader r with
    | true =>
      have hT : isHeaderT (⟨r.film, r.usReleaseDate, r.rest, none⟩ : RowT) = true := hh
      simp [hh, hT, List.filter_cons, ih]
    | false =>
      have hT : isHeaderT
          (⟨r.film, r.usReleaseDate, r.rest, some init⟩ : RowT) = false := hh
      simp [hh, hT, List.filter_cons, ih, projT, proj]

/-- C3: trilogy header rows only label later rows; with
`needed_flag = True` the result of `process_films` contains no row whose
`Film` cell has the substring `"trilogy"`, and it is exactly the other
input rows (projected to the first two columns, in order). -/
theorem claim3_headers_dropped (df : List Row) :
    (∀ r2 ∈ process_films df true, containsSub "trilogy" r2.film = false) ∧
    process_films df true = (df.filter (fun r => !isHeader r)).map proj := by
  have hmain : process_films df true = (df.filter (fun r => !isHeader r)).map proj :=
    fillPass_filter_map df ""
  refine ⟨?_, hmain⟩
  intro r2 hr2
  rw [hmain] at hr2
  obtain ⟨r, hrmem, rfl⟩ := List.mem_map.mp hr2
  have hkeep := (List.mem_filter.mp hrmem).2
  simpa [proj, isHeader] using hkeep

theorem claim3_witness :
    containsSub "trilogy" (Row2.mk "A New Hope" dHope).film = false ∧
    process_films [rowHeaderO, rowHope] true =
      ([rowHeaderO, rowHope].filter (fun r => !isHeader r)).map proj :=
  ⟨(claim3_headers_dropped [rowHeaderO, rowHope]).1 (Row2.mk "A New Hope" dHope)
      (by decide),
    (claim3_headers_dropped [rowHeaderO, rowHope]).2⟩

/-- C8: the fill pass touches only the `Trilogy` cell: row `i` keeps its
`Film`, `U.S. release date` and remaining cells; a header row keeps the
initial `None`, and every other row has its `Trilogy` cell set (once, at
its own loop iteration) to the accumulator value reached there. -/
theorem claim8_single_write_frame (df : List Row) (i : Nat) (r : Row)
    (hr : df[i]? = some r) :
    ∃ rt : RowT, (fillPass df "")[i]? = some rt ∧
      rt.film = r.film ∧ rt.usReleaseDate = r.usReleaseDate ∧ rt.rest = r.rest ∧
      rt.trilogy = (if isHeader r then none
        else some (lastLabel (df.take i) "")) := by
  have h := fillPass_getElem? df "" i
  rw [hr] at h
  exact ⟨_, h, rfl, rfl, rfl, rfl⟩

theorem claim8_witness :
    ([rowHeaderO, rowHope][0]? = some rowHeaderO) ∧
    ∃ rt : RowT, (fillPass [rowHeaderO, rowHope] "")[0]? = some rt ∧
      rt.film = rowHeaderO.film ∧ rt.usReleaseDate = rowHeaderO.usReleaseDate ∧
      rt.rest = rowHeaderO.rest ∧
      rt.trilogy = (if isHeader rowHeaderO then none
        else some (lastLabel ([rowHeaderO, rowHope].take 0) "")) :=
  ⟨by decide, claim8_single_write_frame [rowHeaderO, rowHope] 0 rowHeaderO (by decide)⟩

/-- A row whose `Film` cell contains `"Trilogy"` with a capital letter. -/
def rowTrilogyFilm : Row := ⟨"The Trilogy Film", dHope, []⟩

/-- C10: header detection is a case-sensitive substring match, so a row
whose `Film` cell contains `"Trilogy"` (capitalised) but not `"trilogy"`
is an ordinary film row: it is given the forward-filled label of the
preceding header and it survives the header-removal filter. -/
theorem claim10_case_sensitive :
    isHeader rowTrilogyFilm = false ∧
    containsSub "Trilogy" rowTrilogyFilm.film = true ∧
    process_films [rowHeaderO, rowTrilogyFilm] true =
      [Row2.mk "The Trilogy Film" dHope] ∧
    (fillPass [rowHeaderO, rowTrilogyFilm] "")[1]? =
      some ⟨"The Trilogy Film", dHope, [], some "Original trilogy"⟩ := by
  decide

/-- A row after `df["Year"] = df["U.S. release date"].dt.year` appended the
`Year` column. -/
structure RowY where
  film : String
  usReleaseDate : Date
  year : Int
  deriving DecidableEq, Repr

/-- A row of the final Datawrapper dataset `df[["Film", "Year"]]`: exactly
the two columns `Film` and `Year`. -/
structure RowFY where
  film : String
  year : Int
  deriving DecidableEq, Repr

/-- Append of the derived `Year` column: the integer calendar year of the
`U.S. release date` cell of the same row. -/
def addYear (r : Row2) : RowY :=
  ⟨r.film, r.usReleaseDate, r.usReleaseDate.year⟩

/-- Insert a row into a year-sorted list, keeping it year-sorted. -/
def insertByYear (r : RowY) : List RowY → List RowY
  | [] => [r]
  | x :: xs => if r.year ≤ x.year then r :: x :: xs else x :: insertByYear r xs

/-- The call `df.sort_values(by="Year", ascending=True)`: reorder the rows
into ascending `Year` order (pandas uses quicksort; any year-ordered
permutation is an admissible model, this one is insertion sort). -/
def sortValuesByYear : List RowY → List RowY
  | [] => []
  | x :: xs => insertByYear x (sortValuesByYear xs)

/-- Projection `df[["Film", "Year"]]` to the two chart columns. -/
def projFY (r : RowY) : RowFY :=
  ⟨r.film, r.year⟩

/-- The function `prepare_dw_data` (lines 121-148 of `final_scraper.py`),
modelled from the three extracted tables onward: clean the Skywalker table
with trilogy processing and the other two without, concatenate, derive the
`Year` column from the release date, sort ascending by `Year`, and project
to the columns `Film` and `Year`. -/
def prepare_dw_data (sky sta spe : List Row) : List RowFY :=
  let df := process_films sky true ++ process_films sta false ++ process_films spe false
  (sortValuesByYear (df.map addYear)).map projFY

theorem insertByYear_perm (r : RowY) (l : List RowY) :
    List.Perm (insertByYear r l) (r :: l) := by
  induction l with
  | nil => rfl
  | cons x xs ih =>
    simp only [insertByYear]
    split
    · rfl
    · exact (ih.cons x).trans (List.Perm.swap r x xs)

theorem sortValuesByYear_perm (l : List RowY) :
    List.Perm (sortValuesByYear l) l := by
  induction l with
  | nil => rfl
  | cons x xs ih =>
    exact (insertByYear_perm x (sortValuesByYear xs)).trans (ih.cons x)

theorem insertByYear_pairwise (r : RowY) (l : List RowY)
    (h : l.Pairwise (fun a b => a.year ≤ b.year)) :
    (insertByYear r l).Pairwise (fun a b => a.year ≤ b.year) := by
  induction l with
  | nil => simp [insertByYear]
  | cons x xs ih =>
    rcases List.pairwise_cons.mp h with ⟨hx, hxs⟩
    simp only [insertByYear]
    split
    · rename_i hle
      refine List.pairwise_cons.mpr ⟨?_, h⟩
      intro b hb
      rcases List.mem_cons.mp hb with hb | hb
      · exact hb ▸ hle
      · exact le_trans hle (hx b hb)
    · rename_i hgt
      refine List.pairwise_cons.mpr ⟨?_, ih hxs⟩
      intro b hb
      have hb2 := (insertByYear_perm r xs).mem_iff.mp hb
      rcases List.mem_cons.mp hb2 with hb2 | hb2
      · exact hb2 ▸ le_of_not_le hgt
      · exact hx b hb2

theorem sortValuesByYear_pairwise (l : List RowY) :
    (sortValuesByYear l).Pairwise (fun a b => a.year ≤ b.year) := by
  induction l with
  | nil => simp [sortValuesByYear]
  | cons x xs ih => exact insertByYear_pairwise x (sortValuesByYear xs) ih

/-- C4: the Datawrapper dataset has exactly the two columns `Film` and
`Year` (the fields of `RowFY`), and every output row pairs a film of the
concatenated cleaned tables with the integer calendar year of that same
row's release date. -/
theorem claim4_film_year_dataset (sky sta spe : List Row) (o : RowFY)
    (ho : o ∈ prepare_dw_data sky sta spe) :
    ∃ r ∈ process_films sky true ++ process_films sta false ++
        process_films spe false,
      o.film = r.film ∧ o.year = r.usReleaseDate.year := by
  obtain ⟨y, hy, rfl⟩ := List.mem_map.mp ho
  have hy2 : y ∈ (process_films sky true ++ process_films sta false ++
      process_films spe false).map addYear :=
    (sortValuesByYear_perm _).mem_iff.mp hy
  obtain ⟨r, hr, rfl⟩ := List.mem_map.mp hy2
  exact ⟨r, hr, rfl, rfl⟩

theorem claim4_witness :
    (RowFY.mk "A New Hope" 1977 ∈ prepare_dw_data [] [rowHope] []) ∧
    ∃ r ∈ process_films [] true ++ process_films [rowHope] false ++
        process_films [] false,
      (RowFY.mk "A New Hope" 1977).film = r.film ∧
      (RowFY.mk "A New Hope" 1977).year = r.usReleaseDate.year :=
  ⟨by decide, claim4_film_year_dataset [] [rowHope] []
    (RowFY.mk "A New Hope" 1977) (by decide)⟩

/-- C5: the Datawrapper dataset is a reordering of the concatenation of
the three cleaned tables (projected to film and release year), and its
rows are in ascending `Year` order: each row's `Year` is at most the next
one's. -/
theorem claim5_concat_sorted (sky sta spe : List Row) :
    List.Chain' (fun a b => a.year ≤ b.year) (prepare_dw_data sky sta spe) ∧
    List.Perm (prepare_dw_data sky sta spe)
      ((process_films sky true ++ process_films sta false ++
        process_films spe false).map (fun r => RowFY.mk r.film r.usReleaseDate.year)) := by
  constructor
  · refine List.Pairwise.chain' ?_
    exact (sortValuesByYear_pairwise _).map projFY (fun a b h => h)
  · have h1 : List.Perm (prepare_dw_data sky sta spe)
        (((process_films sky true ++ process_films sta false ++
          process_films spe false).map addYear).map projFY) :=
      (sortValuesByYear_perm _).map projFY
    simpa [List.map_map, Function.comp, addYear, projFY] using h1

/-- An HTML table of the fetched page: its `class` attribute string and
its rows of cells. -/
structure HtmlTable where
  classAttr : String
  rows : List (List String)
  deriving DecidableEq, Repr

/-- The parsed HTML of the fetched page, abstracted to the list of its
tables in document order. -/
structure Page where
  tables : List HtmlTable
  deriving DecidableEq, Repr

/-- The CSS selection `soup.select("table[class*=...]")` (line 64 of
`final_scraper.py`): the tables whose `class` attribute contains the given
class name as a substring, in document order. -/
def selectTables (page : Page) (class_name : String) : List HtmlTable :=
  page.tables.filter (fun t => containsSub class_name t.classAttr)

/-- A parsed table as produced by `pd.read_html`. -/
structure Frame where
  header : List String
  data : List (List String)
  deriving DecidableEq, Repr

/-- The call `pd.read_html(StringIO(str(table)), header=0)[0]` (line 71 of
`final_scraper.py`): the first row of the table becomes the column header
and the remaining rows the data. -/
def read_html_h0 (t : HtmlTable) : Frame :=
  ⟨t.rows.headD [], t.rows.drop 1⟩

/-- The function `extract_films` (lines 50-72 of `final_scraper.py`),
modelled from the parsed page onward: select the tables matching the class
name, raise `IndexError` when `table_index` is not below their count, and
otherwise parse the table at that positional index. -/
def extract_films (page : Page) (table_index : Nat) (class_name : String) :
    Except String Frame :=
  let tables := selectTables page class_name
  if h : tables.length ≤ table_index then
    .error "Table index out of range."
  else
    .ok (read_html_h0 (tables.get ⟨table_index, Nat.lt_of_not_le h⟩))

/-- C6: `extract_films` raises `IndexError` exactly when `table_index` is
at least the number of tables matching the class name, and otherwise
returns the parse of the matched table at that positional index. -/
theorem claim6_index_check (page : Page) (table_index : Nat) (class_name : String) :
    ((selectTables page class_name).length ≤ table_index →
      extract_films page table_index class_name = .error "Table index out of range.") ∧
    (∀ h : table_index < (selectTables page class_name).length,
      extract_films page table_index class_name =
        .ok (read_html_h0 ((selectTables page class_name).get ⟨table_index, h⟩))) := by
  constructor
  · intro h
    simp [extract_films, h]
  · intro h
    simp [extract_films, Nat.not_le.mpr h]

/-- Sample page with a single matching table, for the C6 witness. -/
def samplePage : Page :=
  ⟨[⟨"wikitable plainrowheaders", [["Film", "U.S. release date"],
      ["A New Hope", "May 25, 1977"]]⟩,
    ⟨"infobox", [["Star Wars"]]⟩]⟩

theorem claim6_witness :
    extract_films samplePage 3 "wikitable plainrowheaders" =
      .error "Table index out of range." ∧
    extract_films samplePage 0 "wikitable plainrowheaders" =
      .ok (read_html_h0 ((selectTables samplePage "wikitable plainrowheaders").get
        ⟨0, by decide⟩)) :=
  ⟨(claim6_index_check samplePage 3 "wikitable plainrowheaders").1 (by decide),
    (claim6_index_check samplePage 0 "wikitable plainrowheaders").2 (by decide)⟩

/-- A request-related error (`requests.exceptions.RequestException` and
its subclasses); `httpError` is what `raise_for_status` raises on a
non-success status code. -/
inductive RequestError where
  | connectionError : String → RequestError
  | timeout : String → RequestError
  | tooManyRedirects : String → RequestError
  | httpError : Nat → RequestError
  deriving DecidableEq, Repr

/-- An HTTP response: status code and body. -/
structure Response where
  statusCode : Nat
  content : String
  deriving DecidableEq, Repr

/-- Outcome of the single call `requests.get(url)`: either it raises a
request-related error, or it yields a response (whose status may still be
a failure status). -/
inductive GetOutcome where
  | raised : RequestError → GetOutcome
  | got : Response → GetOutcome
  deriving DecidableEq, Repr

/-- The method `Response.raise_for_status()`: raises `HTTPError` exactly
for the 4xx and 5xx status codes. -/
def raise_for_status (r : Response) : Except RequestError Unit :=
  if 400 ≤ r.statusCode then .error (.httpError r.statusCode) else .ok ()

/-- The function `scrape_website_requests` (lines 26-46 of
`final_scraper.py`): perform one GET, call `raise_for_status`, and return
the response; any `RequestException` is logged and re-raised unchanged.
The model takes the outcome of the single GET attempt as input — the code
consults exactly one attempt, so no retry is expressible. -/
def scrape_website_requests (get : GetOutcome) : Except RequestError Response :=
  match get with
  | .raised e => .error e
  | .got r =>
    match raise_for_status r with
    | .error e => .error e
    | .ok _ => .ok r

/-- C7: `scrape_website_requests` raises exactly when the GET fails (a
raised request error, or a response with a failure status, which
`raise_for_status` turns into an `HTTPError`); the raised error is the
original one, re-raised unchanged after logging, and on success the
response is returned unchanged. -/
theorem claim7_raise_iff_failure (get : GetOutcome) :
    (∀ r : Response, scrape_website_requests get = .ok r ↔
      (get = .got r ∧ r.statusCode < 400)) ∧
    (∀ e : RequestError, scrape_website_requests get = .error e ↔
      (get = .raised e ∨ ∃ r : Response, get = .got r ∧ 400 ≤ r.statusCode ∧
        e = .httpError r.statusCode)) := by
  constructor
  · intro r
    cases get with
    | raised e =>
      constructor
      · intro hr
        cases hr
      · rintro ⟨hg, _⟩
        cases hg
    | got r0 =>
      by_cases h : 400 ≤ r0.statusCode
      · have hs : scrape_website_requests (.got r0) =
            .error (.httpError r0.statusCode) := by
          simp [scrape_website_requests, raise_for_status, h]
        rw [hs]
        constructor
        · intro hr
          cases hr
        · rintro ⟨hg, hlt⟩
          injection hg with hg
          subst hg
          omega
      · have hs : scrape_website_requests (.got r0) = .ok r0 := by
          simp [scrape_website_requests, raise_for_status, h]
        rw [hs]
        constructor
        · intro hr
          injection hr with hr
          subst hr
          exact ⟨rfl, Nat.lt_of_not_le h⟩
        · rintro ⟨hg, _⟩
          injection hg with hg
          subst hg
          rfl
  · intro e
    cases get with
    | raised e0 =>
      constructor
      · intro he
        injection he with he
        subst he
        exact Or.inl rfl
      · rintro (hg | ⟨r, hg, _, _⟩)
        · injection hg with hg
          subst hg
          rfl
        · cases hg
    | got r0 =>
      by_cases h : 400 ≤ r0.statusCode
      · have hs : scrape_website_requests (.got r0) =
            .error (.httpError r0.statusCode) := by
          simp [scrape_website_requests, raise_for_status, h]
        rw [hs]
        constructor
        · intro he
          injection he with he
          exact Or.inr ⟨r0, rfl, h, he.symm⟩
        · rintro (hg | ⟨r, hg, _, he⟩)
          · cases hg
          · injection hg with hg
            subst hg
            rw [he]
      · have hs : scrape_website_requests (.got r0) = .ok r0 := by
          simp [scrape_website_requests, raise_for_status, h]
        rw [hs]
        constructor
        · intro he
          cases he
        · rintro (hg | ⟨r, hg, hge, _⟩)
          · cases hg
          · injection hg with hg
            subst hg
            exact absurd hge h

theorem claim7_witness :
    (scrape_website_requests (.got ⟨200, "page"⟩) = .ok ⟨200, "page"⟩ ↔
      ((GetOutcome.got ⟨200, "page"⟩) = .got ⟨200, "page"⟩ ∧ (200 : Nat) < 400)) ∧
    (scrape_website_requests (.got ⟨404, "missing"⟩) =
        .error (.httpError 404) ↔
      ((GetOutcome.got ⟨404, "missing"⟩) = .raised (.httpError 404) ∨
        ∃ r : Response, (GetOutcome.got ⟨404, "missing"⟩) = .got r ∧
          400 ≤ r.statusCode ∧ (RequestError.httpError 404) = .httpError r.statusCode)) :=
  ⟨(claim7_raise_iff_failure (.got ⟨200, "page"⟩)).1 ⟨200, "page"⟩,
    (claim7_raise_iff_failure (.got ⟨404, "missing"⟩)).2 (.httpError 404)⟩

end StarWarsScraper
